import Mathlib

/-!
Verification of the ingress-policy translation core (pkg/catalog/ingress.go).

The Go source under verification translates Kubernetes Ingress resources
(two schema versions, networking/v1 and networking/v1beta1) into the mesh's
inbound traffic policy model.  Pure Go functions are embedded as Lean
functions; the external collaborators (the ingress resource provider, the
port-to-protocol resolver and the configuration flags) are modelled as
explicit fields of a `MeshCatalog` record; Go's `(value, error)` returns
become `Except`.
-/

namespace OSM

/-- The regex suffix appended to non-root Prefix-type paths
(constant `prefixMatchPathElementsRegex` in ingress.go). -/
def prefixMatchPathElementsRegex : String := "(/.*)?$"

/-- Characters commonly used in a regex, used to guess whether an
ImplementationSpecific path appears as a regex
(constant `commonRegexChars` in ingress.go). -/
def commonRegexChars : String := "^$*+[]%|"

/-- Modelled from the spec: the wildcard token `constants.WildcardHTTPMethod`
(pkg/constants, not under src/), used both as the all-methods marker and as
the wildcard hostname token. -/
def WildcardHTTPMethod : String := "*"

/-- Modelled from the spec: `constants.ProtocolHTTP` (pkg/constants, not under
src/); the naming contract in the spec renders it as `http`. -/
def ProtocolHTTP : String := "http"

/-- Modelled from the spec: `constants.ProtocolHTTPS` (pkg/constants, not
under src/); the naming contract in the spec renders it as `https`. -/
def ProtocolHTTPS : String := "https"

/-- Modelled from the spec: `identity.WildcardServiceIdentity` (pkg/identity,
not under src/), the caller-identity placeholder meaning any caller. -/
def WildcardServiceIdentity : String := "*"

/-- A mesh service identity: name, namespace and the logical server name used
for TLS matching (spec data model; pkg/service, not under src/). -/
structure MeshService where
  name : String
  nspace : String
  serverName : String
deriving DecidableEq, Repr

/-- Modelled from the spec: the textual rendering of a service identity used
inside traffic-match names (`fmt.Sprintf` with `%s` on the service). -/
def meshServiceString (svc : MeshService) : String :=
  svc.nspace ++ "/" ++ svc.name

/-- Normalized path match kind (`trafficpolicy.PathMatchExact` /
`PathMatchPrefix` / `PathMatchRegex`; pkg/trafficpolicy, not under src/). -/
inductive PathMatchType where
  | exactPath
  | prefixPath
  | regexPath
deriving DecidableEq, Repr

/-- Normalized HTTP route match (`trafficpolicy.HTTPRouteMatch`). -/
structure HTTPRouteMatch where
  path : String
  pathMatchType : PathMatchType
  methods : List String
deriving DecidableEq, Repr

/-- A backend cluster reference with a routing weight
(`service.WeightedCluster`). -/
structure WeightedCluster where
  clusterName : String
  weight : Nat
deriving DecidableEq, Repr

/-- Modelled from the spec: `getDefaultWeightedClusterForService` (not under
src/) returns the single full-weight default cluster for a service. -/
def getDefaultWeightedClusterForService (svc : MeshService) : WeightedCluster :=
  { clusterName := meshServiceString svc, weight := 100 }

/-- A route match together with its weighted clusters
(`trafficpolicy.RouteWeightedClusters`). -/
structure RouteWeightedClusters where
  httpRouteMatch : HTTPRouteMatch
  weightedClusters : List WeightedCluster
deriving DecidableEq, Repr

/-- One rule of an inbound traffic policy: route plus permitted caller
identities (`trafficpolicy.Rule`). -/
structure Rule where
  route : RouteWeightedClusters
  allowedServiceIdentities : List String
deriving DecidableEq, Repr

/-- A named inbound traffic policy keyed by hostnames
(`trafficpolicy.InboundTrafficPolicy`). -/
structure InboundTrafficPolicy where
  name : String
  hostnames : List String
  rules : List Rule
deriving DecidableEq, Repr

/-- Modelled from the spec: `trafficpolicy.NewInboundTrafficPolicy` (not under
src/) builds a policy with the given name and hostnames and no rules. -/
def NewInboundTrafficPolicy (name : String) (hostnames : List String) :
    InboundTrafficPolicy :=
  { name := name, hostnames := hostnames, rules := [] }

/-- Modelled from the spec: `InboundTrafficPolicy.AddRule` (not under src/)
appends a rule (route, caller identity) to the policy. -/
def addRule (pol : InboundTrafficPolicy) (route : RouteWeightedClusters)
    (svcIdentity : String) : InboundTrafficPolicy :=
  { pol with
    rules := pol.rules ++ [{ route := route, allowedServiceIdentities := [svcIdentity] }] }

/-- Modelled from the spec: `trafficpolicy.WildCardRouteMatch` (not under
src/), the wildcard path match covering every path and every method. -/
def WildCardRouteMatch : HTTPRouteMatch :=
  { path := ".*", pathMatchType := .regexPath, methods := [WildcardHTTPMethod] }

/-- Errors surfaced by the ingress pipeline. -/
inductive PolicyError where
  | providerFetch (msg : String)
  | ambiguousHostnameOverlap
deriving DecidableEq, Repr

/-- Whether two hostname sets share at least one hostname. -/
def hostnamesIntersect (a b : List String) : Bool :=
  a.any (fun h => b.contains h)

/-- Whether two hostname sets partially overlap: they intersect but are not
identical. -/
def hostnamesPartialOverlap (a b : List String) : Bool :=
  hostnamesIntersect a b && !(a == b)

/-- Modelled from the spec: `trafficpolicy.MergeInboundPolicies`
(pkg/trafficpolicy, not under src/), specialized to the
`DisallowPartialHostnamesMatch` strategy, the only strategy the call sites in
ingress.go use.  If the candidate's hostname set exactly matches an existing
policy's, the candidate's rules are appended to that policy; if it is disjoint
from every existing policy's, the candidate is appended as a new entry; if it
partially overlaps some existing policy's, the merge fails with
`AmbiguousHostnameOverlap`. -/
def MergeInboundPolicies (existing : List InboundTrafficPolicy)
    (cand : InboundTrafficPolicy) :
    Except PolicyError (List InboundTrafficPolicy) :=
  if existing.any (fun p => hostnamesPartialOverlap p.hostnames cand.hostnames) then
    .error .ambiguousHostnameOverlap
  else if existing.any (fun p => p.hostnames == cand.hostnames) then
    .ok (existing.map (fun p =>
      if p.hostnames == cand.hostnames then
        { p with rules := p.rules ++ cand.rules }
      else p))
  else
    .ok (existing ++ [cand])

/-- Modelled from the spec: the merge as invoked at the call sites in
ingress.go (lines 157, 234, 261 and 338).  Each call site assigns the
merge's single return value — `inboundIngressPolicies =
trafficpolicy.MergeInboundPolicies(...)` — so the merge the extractors
actually perform is total: a candidate whose hostname set exactly matches an
existing policy's has its rules appended to that policy, and any other
candidate is appended as a new entry.  It agrees with the
`MergeInboundPolicies` contract on every input on which that contract
succeeds (proven below); within extraction every candidate carries a
singleton hostname set, for which exact-match-or-disjoint is exhaustive. -/
def mergeInboundPoliciesList (existing : List InboundTrafficPolicy)
    (cand : InboundTrafficPolicy) : List InboundTrafficPolicy :=
  if existing.any (fun p => p.hostnames == cand.hostnames) then
    existing.map (fun p =>
      if p.hostnames == cand.hostnames then
        { p with rules := p.rules ++ cand.rules }
      else p)
  else
    existing ++ [cand]

/-- `getIngressTrafficPolicyName` from ingress.go: the deterministic policy
name of the form `name.namespace|host`. -/
def getIngressTrafficPolicyName (name nspace host : String) : String :=
  name ++ "." ++ nspace ++ "|" ++ host

/-- Embedding of Go's `strings.TrimRight(s, "/")`: remove all trailing `/`
characters. -/
def trimRightSlash (s : String) : String :=
  ⟨(s.data.reverse.dropWhile (fun c => c == '/')).reverse⟩

/-- Embedding of Go's `strings.ContainsAny(s, chars)`: whether `s` contains
any character of `chars`. -/
def containsAnyChar (s chars : String) : Bool :=
  s.data.any (fun c => chars.data.contains c)

/-- The normalization performed before the path-type switch in both
extractors: a nil (`Option.none`) path type defaults to
`ImplementationSpecific`. -/
def effectivePathType (pt : Option String) : String :=
  match pt with
  | none => "ImplementationSpecific"
  | some t => t

/-! ### networking.k8s.io/v1beta1 ingress shapes (k8s.io/api/networking/v1beta1) -/

/-- v1beta1 ingress backend: the backend service is named directly by
`ServiceName`. -/
structure IngressBackendV1beta1 where
  serviceName : String
deriving DecidableEq, Repr

/-- v1beta1 HTTP ingress path: path string, optional path type (a string-typed
tag, nil when unset) and backend. -/
structure HTTPIngressPathV1beta1 where
  path : String
  pathType : Option String
  backend : IngressBackendV1beta1
deriving DecidableEq, Repr

/-- v1beta1 ingress rule: host plus the HTTP paths (`rule.HTTP.Paths`). -/
structure IngressRuleV1beta1 where
  host : String
  paths : List HTTPIngressPathV1beta1
deriving DecidableEq, Repr

/-- v1beta1 ingress object: object meta (name, namespace), optional default
backend (`Spec.Backend`) and rules. -/
structure IngressV1beta1 where
  name : String
  nspace : String
  backend : Option IngressBackendV1beta1
  rules : List IngressRuleV1beta1
deriving DecidableEq, Repr

/-! ### networking.k8s.io/v1 ingress shapes (k8s.io/api/networking/v1) -/

/-- v1 service backend: the service is a nested object carrying the name. -/
structure IngressServiceBackendV1 where
  name : String
deriving DecidableEq, Repr

/-- v1 ingress backend: wraps the service backend (`Backend.Service.Name`). -/
structure IngressBackendV1 where
  service : IngressServiceBackendV1
deriving DecidableEq, Repr

/-- v1 HTTP ingress path. -/
structure HTTPIngressPathV1 where
  path : String
  pathType : Option String
  backend : IngressBackendV1
deriving DecidableEq, Repr

/-- v1 ingress rule. -/
structure IngressRuleV1 where
  host : String
  paths : List HTTPIngressPathV1
deriving DecidableEq, Repr

/-- v1 ingress object with optional `Spec.DefaultBackend`. -/
structure IngressV1 where
  name : String
  nspace : String
  defaultBackend : Option IngressBackendV1
  rules : List IngressRuleV1
deriving DecidableEq, Repr

/-! ### Path-type switch (duplicated per schema version in ingress.go) -/

/-- The path-type switch of `getIngressPoliciesNetworkingV1beta1`
(ingress.go lines 182-227): given the effective (already normalized) path
type, produce the route match, or `none` for the default branch, which skips
the path. -/
def routeMatchForPathTypeV1beta1 (path : String) (pt : String) :
    Option HTTPRouteMatch :=
  if pt = "Exact" then
    some { path := path, pathMatchType := .exactPath,
           methods := [WildcardHTTPMethod] }
  else if pt = "Prefix" then
    if path = "/" then
      some { path := path, pathMatchType := .prefixPath,
             methods := [WildcardHTTPMethod] }
    else
      some { path := trimRightSlash path ++ prefixMatchPathElementsRegex,
             pathMatchType := .regexPath, methods := [WildcardHTTPMethod] }
  else if pt = "ImplementationSpecific" then
    some { path := path,
           pathMatchType :=
             if containsAnyChar path commonRegexChars then .regexPath
             else .prefixPath,
           methods := [WildcardHTTPMethod] }
  else
    none

/-- Path-type normalization plus switch for v1beta1 (ingress.go lines
176-227). -/
def routeMatchForPathV1beta1 (path : String) (pt : Option String) :
    Option HTTPRouteMatch :=
  routeMatchForPathTypeV1beta1 path (effectivePathType pt)

/-- The path-type switch of `getIngressPoliciesNetworkingV1`
(ingress.go lines 286-331); textually identical to the v1beta1 switch, over
the equal path-type constant strings of the v1 schema. -/
def routeMatchForPathTypeV1 (path : String) (pt : String) :
    Option HTTPRouteMatch :=
  if pt = "Exact" then
    some { path := path, pathMatchType := .exactPath,
           methods := [WildcardHTTPMethod] }
  else if pt = "Prefix" then
    if path = "/" then
      some { path := path, pathMatchType := .prefixPath,
             methods := [WildcardHTTPMethod] }
    else
      some { path := trimRightSlash path ++ prefixMatchPathElementsRegex,
             pathMatchType := .regexPath, methods := [WildcardHTTPMethod] }
  else if pt = "ImplementationSpecific" then
    some { path := path,
           pathMatchType :=
             if containsAnyChar path commonRegexChars then .regexPath
             else .prefixPath,
           methods := [WildcardHTTPMethod] }
  else
    none

/-- Path-type normalization plus switch for v1 (ingress.go lines 280-331). -/
def routeMatchForPathV1 (path : String) (pt : Option String) :
    Option HTTPRouteMatch :=
  routeMatchForPathTypeV1 path (effectivePathType pt)

/-! ### Per-path, per-rule and per-ingress processing -/

/-- One iteration of the v1beta1 path loop (ingress.go lines 167-230): skip
the path when its backend does not target the service, otherwise translate
it; `none` means the path contributes no rule. -/
def pathRuleV1beta1 (svcName : String) (p : HTTPIngressPathV1beta1) :
    Option HTTPRouteMatch :=
  if p.backend.serviceName = svcName then
    routeMatchForPathV1beta1 p.path p.pathType
  else
    none

/-- One iteration of the v1 path loop (ingress.go lines 271-334). -/
def pathRuleV1 (svcName : String) (p : HTTPIngressPathV1) :
    Option HTTPRouteMatch :=
  if p.backend.service.name = svcName then
    routeMatchForPathV1 p.path p.pathType
  else
    none

/-- The per-hostname policy built for one v1beta1 ingress rule (ingress.go
lines 160-230): normalize the host to the wildcard token, then add one rule
per successfully translated path targeting the service. -/
def policyForRuleV1beta1 (svc : MeshService) (ingName ingNs : String)
    (rule : IngressRuleV1beta1) : InboundTrafficPolicy :=
  let domain := if rule.host = "" then WildcardHTTPMethod else rule.host
  rule.paths.foldl
    (fun pol p =>
      match pathRuleV1beta1 svc.name p with
      | none => pol
      | some m =>
        addRule pol
          { httpRouteMatch := m,
            weightedClusters := [getDefaultWeightedClusterForService svc] }
          WildcardServiceIdentity)
    (NewInboundTrafficPolicy
      (getIngressTrafficPolicyName ingName ingNs domain) [domain])

/-- The per-hostname policy built for one v1 ingress rule (ingress.go lines
264-334). -/
def policyForRuleV1 (svc : MeshService) (ingName ingNs : String)
    (rule : IngressRuleV1) : InboundTrafficPolicy :=
  let domain := if rule.host = "" then WildcardHTTPMethod else rule.host
  rule.paths.foldl
    (fun pol p =>
      match pathRuleV1 svc.name p with
      | none => pol
      | some m =>
        addRule pol
          { httpRouteMatch := m,
            weightedClusters := [getDefaultWeightedClusterForService svc] }
          WildcardServiceIdentity)
    (NewInboundTrafficPolicy
      (getIngressTrafficPolicyName ingName ingNs domain) [domain])

/-- The wildcard policy synthesized when an ingress object's default backend
targets the service (ingress.go lines 155-156 and 259-260): wildcard hostname
and a single wildcard-route rule to the default weighted cluster. -/
def wildcardIngressPolicy (svc : MeshService) (ingName ingNs : String) :
    InboundTrafficPolicy :=
  addRule
    (NewInboundTrafficPolicy
      (getIngressTrafficPolicyName ingName ingNs WildcardHTTPMethod)
      [WildcardHTTPMethod])
    { httpRouteMatch := WildCardRouteMatch,
      weightedClusters := [getDefaultWeightedClusterForService svc] }
    WildcardServiceIdentity

/-- One iteration of the v1beta1 rule loop: build the per-hostname policy
and merge it into the accumulated result only if it accumulated at least one
rule (ingress.go lines 232-235).  The merge call site assigns a single
return value, so this step is total and the loop continues
unconditionally. -/
def processRuleV1beta1 (svc : MeshService) (ingName ingNs : String)
    (acc : List InboundTrafficPolicy) (rule : IngressRuleV1beta1) :
    List InboundTrafficPolicy :=
  let pol := policyForRuleV1beta1 svc ingName ingNs rule
  if pol.rules.length > 0 then mergeInboundPoliciesList acc pol else acc

/-- One iteration of the v1 rule loop (ingress.go lines 336-339); the merge
call site assigns a single return value, so the step is total. -/
def processRuleV1 (svc : MeshService) (ingName ingNs : String)
    (acc : List InboundTrafficPolicy) (rule : IngressRuleV1) :
    List InboundTrafficPolicy :=
  let pol := policyForRuleV1 svc ingName ingNs rule
  if pol.rules.length > 0 then mergeInboundPoliciesList acc pol else acc

/-- One iteration of the v1beta1 ingress-object loop (ingress.go lines
153-237): merge the wildcard default-backend policy when the default backend
targets the service, then process every rule; the loop has no error path. -/
def processIngressV1beta1 (svc : MeshService)
    (acc : List InboundTrafficPolicy) (ing : IngressV1beta1) :
    List InboundTrafficPolicy :=
  let acc :=
    match ing.backend with
    | some b =>
      if b.serviceName = svc.name then
        mergeInboundPoliciesList acc (wildcardIngressPolicy svc ing.name ing.nspace)
      else acc
    | none => acc
  ing.rules.foldl (processRuleV1beta1 svc ing.name ing.nspace) acc

/-- One iteration of the v1 ingress-object loop (ingress.go lines 257-341);
the loop has no error path. -/
def processIngressV1 (svc : MeshService)
    (acc : List InboundTrafficPolicy) (ing : IngressV1) :
    List InboundTrafficPolicy :=
  let acc :=
    match ing.defaultBackend with
    | some b =>
      if b.service.name = svc.name then
        mergeInboundPoliciesList acc (wildcardIngressPolicy svc ing.name ing.nspace)
      else acc
    | none => acc
  ing.rules.foldl (processRuleV1 svc ing.name ing.nspace) acc

/-- The pure part of `getIngressPoliciesNetworkingV1beta1`: process the fetched
ingress objects in order, starting from the empty result. -/
def extractV1beta1 (svc : MeshService) (ingresses : List IngressV1beta1) :
    List InboundTrafficPolicy :=
  ingresses.foldl (processIngressV1beta1 svc) []

/-- The pure part of `getIngressPoliciesNetworkingV1`. -/
def extractV1 (svc : MeshService) (ingresses : List IngressV1) :
    List InboundTrafficPolicy :=
  ingresses.foldl (processIngressV1 svc) []

/-! ### The catalog and its external collaborators -/

/-- Modelled from the spec: the external collaborators of `MeshCatalog`
(§6) — the per-version ingress providers (`ingressMonitor.GetIngressNetworkingV1`
/ `GetIngressNetworkingV1beta1`), the port-to-protocol resolver
(`GetTargetPortToProtocolMappingForService`) and the HTTPS-ingress toggle
(`configurator.UseHTTPSIngress`), each given as the outcome it returns for a
service. -/
structure MeshCatalog where
  getIngressNetworkingV1 : MeshService → Except PolicyError (List IngressV1)
  getIngressNetworkingV1beta1 :
    MeshService → Except PolicyError (List IngressV1beta1)
  getTargetPortToProtocolMappingForService :
    MeshService → Except PolicyError (List (Nat × String))
  useHTTPSIngress : Bool

/-- `getIngressPoliciesNetworkingV1beta1` (ingress.go lines 138-239): a fetch
failure is returned to the caller; otherwise the fetched objects are
processed in order and the accumulated list is returned with a nil error. -/
def getIngressPoliciesNetworkingV1beta1 (mc : MeshCatalog)
    (svc : MeshService) : Except PolicyError (List InboundTrafficPolicy) :=
  match mc.getIngressNetworkingV1beta1 svc with
  | .error e => .error e
  | .ok ingresses => .ok (extractV1beta1 svc ingresses)

/-- `getIngressPoliciesNetworkingV1` (ingress.go lines 242-343). -/
def getIngressPoliciesNetworkingV1 (mc : MeshCatalog)
    (svc : MeshService) : Except PolicyError (List InboundTrafficPolicy) :=
  match mc.getIngressNetworkingV1 svc with
  | .error e => .error e
  | .ok ingresses => .ok (extractV1 svc ingresses)

/-- `getIngressPoliciesFromK8s` (ingress.go lines 112-130): build v1 policies,
then v1beta1 policies; an error from either version is logged and that
version's contribution is treated as empty; the function itself always
returns a nil error. -/
def getIngressPoliciesFromK8s (mc : MeshCatalog) (svc : MeshService) :
    Except PolicyError (List InboundTrafficPolicy) :=
  let v1Policies :=
    match getIngressPoliciesNetworkingV1 mc svc with
    | .ok l => l
    | .error _ => []
  let v1beta1Policies :=
    match getIngressPoliciesNetworkingV1beta1 mc svc with
    | .ok l => l
    | .error _ => []
  .ok (v1Policies ++ v1beta1Policies)

/-! ### Traffic matches and the assembler -/

/-- A named listener-level traffic match
(`trafficpolicy.IngressTrafficMatch`). -/
structure IngressTrafficMatch where
  name : String
  port : Nat
  protocol : String
  skipClientCertValidation : Bool
  serverNames : List String
deriving DecidableEq, Repr

/-- The final output (`trafficpolicy.IngressTrafficPolicy`). -/
structure IngressTrafficPolicy where
  trafficMatches : List IngressTrafficMatch
  httpRoutePolicies : List InboundTrafficPolicy
deriving DecidableEq, Repr

/-- One iteration of the port loop of `getIngressTrafficPolicyFromK8s`
(ingress.go lines 74-103): non-HTTP ports are skipped; an HTTP port yields
one plain-HTTP match when HTTPS ingress is disabled, and the without-SNI /
with-SNI pair of HTTPS matches when it is enabled. -/
def trafficMatchesForPort (svc : MeshService) (enableHTTPSIngress : Bool)
    (port : Nat) (appProtocol : String) : List IngressTrafficMatch :=
  if appProtocol ≠ ProtocolHTTP then
    []
  else if enableHTTPSIngress then
    [ { name := "ingress_" ++ meshServiceString svc ++ "_" ++ toString port
          ++ "_" ++ ProtocolHTTPS,
        port := port, protocol := ProtocolHTTPS,
        skipClientCertValidation := true, serverNames := [] },
      { name := "ingress_" ++ meshServiceString svc ++ "_" ++ toString port
          ++ "_" ++ ProtocolHTTPS ++ "_with_sni",
        port := port, protocol := ProtocolHTTPS,
        skipClientCertValidation := true, serverNames := [svc.serverName] } ]
  else
    [ { name := "ingress_" ++ meshServiceString svc ++ "_" ++ toString port
          ++ "_" ++ ProtocolHTTP,
        port := port, protocol := ProtocolHTTP,
        skipClientCertValidation := false, serverNames := [] } ]

/-- `getIngressTrafficPolicyFromK8s` (ingress.go lines 55-109): route policies
first; a nil (empty) route-policy list means no ingress configuration and
returns `(nil, nil)`; otherwise the port-to-protocol map is resolved (errors
abort the call) and the traffic matches are built per port. -/
def getIngressTrafficPolicyFromK8s (mc : MeshCatalog) (svc : MeshService) :
    Except PolicyError (Option IngressTrafficPolicy) := do
  let httpRoutePolicies ← getIngressPoliciesFromK8s mc svc
  if httpRoutePolicies = [] then
    return none
  let protocolToPortMap ← mc.getTargetPortToProtocolMappingForService svc
  let enableHTTPSIngress := mc.useHTTPSIngress
  let trafficMatches := protocolToPortMap.foldl
    (fun acc pp => acc ++ trafficMatchesForPort svc enableHTTPSIngress pp.1 pp.2)
    []
  return some
    { trafficMatches := trafficMatches, httpRoutePolicies := httpRoutePolicies }

/-! ### Field-wise conversion between the two schema versions -/

/-- Field-wise conversion of a v1beta1 backend to the v1 shape. -/
def backendToV1 (b : IngressBackendV1beta1) : IngressBackendV1 :=
  { service := { name := b.serviceName } }

/-- Field-wise conversion of a v1beta1 path to the v1 shape. -/
def pathToV1 (p : HTTPIngressPathV1beta1) : HTTPIngressPathV1 :=
  { path := p.path, pathType := p.pathType, backend := backendToV1 p.backend }

/-- Field-wise conversion of a v1beta1 rule to the v1 shape. -/
def ruleToV1 (r : IngressRuleV1beta1) : IngressRuleV1 :=
  { host := r.host, paths := r.paths.map pathToV1 }

/-- Field-wise conversion of a v1beta1 ingress object to the v1 shape: the
same object represented in the other schema version. -/
def ingressToV1 (ing : IngressV1beta1) : IngressV1 :=
  { name := ing.name, nspace := ing.nspace,
    defaultBackend := ing.backend.map backendToV1,
    rules := ing.rules.map ruleToV1 }

/-! ### Concrete instances used by the evaluation witnesses -/

/-- A concrete service used by the evaluation witnesses. -/
def svcEx : MeshService :=
  { name := "bookstore", nspace := "shop",
    serverName := "bookstore.shop.svc.cluster.local" }

/-- A v1 ingress path targeting `svcEx` with Prefix path type. -/
def pathFooEx : HTTPIngressPathV1 :=
  { path := "/foo", pathType := some "Prefix",
    backend := { service := { name := "bookstore" } } }

/-- A v1 ingress path targeting `svcEx` with an unknown path type. -/
def pathBadEx : HTTPIngressPathV1 :=
  { path := "/bad", pathType := some "Bogus",
    backend := { service := { name := "bookstore" } } }

/-- A v1 ingress path targeting `svcEx` with Exact path type. -/
def pathBarEx : HTTPIngressPathV1 :=
  { path := "/bar", pathType := some "Exact",
    backend := { service := { name := "bookstore" } } }

/-- A v1beta1 ingress path targeting `svcEx` with Prefix path type. -/
def pathFooBetaEx : HTTPIngressPathV1beta1 :=
  { path := "/foo", pathType := some "Prefix",
    backend := { serviceName := "bookstore" } }

/-- A v1beta1 ingress path targeting `svcEx` with an unknown path type. -/
def pathBadBetaEx : HTTPIngressPathV1beta1 :=
  { path := "/bad", pathType := some "Bogus",
    backend := { serviceName := "bookstore" } }

/-- A v1beta1 ingress path targeting `svcEx` with Exact path type. -/
def pathBarBetaEx : HTTPIngressPathV1beta1 :=
  { path := "/bar", pathType := some "Exact",
    backend := { serviceName := "bookstore" } }

/-- A v1 ingress object with one rule for host `a.com`. -/
def ingAEx : IngressV1 :=
  { name := "ing-a", nspace := "shop", defaultBackend := none,
    rules := [{ host := "a.com", paths := [pathFooEx] }] }

/-- A default-backend-only v1 ingress object targeting `svcEx`. -/
def ingDefaultEx : IngressV1 :=
  { name := "ing-default", nspace := "shop",
    defaultBackend := some { service := { name := "bookstore" } }, rules := [] }

/-- A v1beta1 ingress object mirroring `ingAEx`. -/
def ingABetaEx : IngressV1beta1 :=
  { name := "ing-a", nspace := "shop", backend := none,
    rules := [{ host := "a.com",
                paths := [{ path := "/foo", pathType := some "Prefix",
                            backend := { serviceName := "bookstore" } }] }] }

/-- An accumulated policy claiming two hostnames, used to exercise the
partial-overlap failure. -/
def polTwoHostsEx : InboundTrafficPolicy :=
  { name := "two-hosts", hostnames := ["a.com", "b.com"], rules := [] }

/-- A candidate policy partially overlapping `polTwoHostsEx`. -/
def polOverlapEx : InboundTrafficPolicy :=
  { name := "overlap", hostnames := ["b.com", "c.com"], rules := [] }

/-- A catalog whose two schema-version fetches both fail. -/
def mcBothFailEx : MeshCatalog :=
  { getIngressNetworkingV1 := fun _ => .error (.providerFetch "v1 down")
    getIngressNetworkingV1beta1 := fun _ => .error (.providerFetch "v1beta1 down")
    getTargetPortToProtocolMappingForService := fun _ => .ok [(80, ProtocolHTTP)]
    useHTTPSIngress := false }

/-- A catalog with one matching ingress whose port-to-protocol resolver
fails. -/
def mcResolverFailEx : MeshCatalog :=
  { getIngressNetworkingV1 := fun _ => .ok [ingDefaultEx]
    getIngressNetworkingV1beta1 := fun _ => .ok []
    getTargetPortToProtocolMappingForService :=
      fun _ => .error (.providerFetch "resolver down")
    useHTTPSIngress := false }

/-- A catalog with no ingress resources in either schema version. -/
def mcNoIngressEx : MeshCatalog :=
  { getIngressNetworkingV1 := fun _ => .ok []
    getIngressNetworkingV1beta1 := fun _ => .ok []
    getTargetPortToProtocolMappingForService := fun _ => .ok [(80, ProtocolHTTP)]
    useHTTPSIngress := false }

/-- A catalog whose v1 fetch result is the field-wise translation of its
v1beta1 fetch result. -/
def mcPairedEx : MeshCatalog :=
  { getIngressNetworkingV1 := fun _ => .ok [ingressToV1 ingABetaEx]
    getIngressNetworkingV1beta1 := fun _ => .ok [ingABetaEx]
    getTargetPortToProtocolMappingForService := fun _ => .ok [(80, ProtocolHTTP)]
    useHTTPSIngress := false }

/-! ### Helper lemmas -/

theorem except_bind_ok {ε α β : Type} (a : α) (f : α → Except ε β) :
    (Except.ok a : Except ε α) >>= f = f a := rfl

theorem except_bind_error {ε α β : Type} (e : ε) (f : α → Except ε β) :
    (Except.error e : Except ε α) >>= f = .error e := rfl

theorem string_append_assoc (a b c : String) : a ++ b ++ c = a ++ (b ++ c) := by
  apply String.ext
  simp [String.data_append]

theorem trimRightSlash_append_slash (p : String) :
    trimRightSlash (p ++ "/") = trimRightSlash p := by
  have hd : (p ++ "/").data = p.data ++ ['/'] := by
    rw [String.data_append]
  unfold trimRightSlash
  rw [hd]
  congr 1
  simp [List.reverse_append]

theorem append_slash_ne_root {p : String} (h : p ≠ "") : p ++ "/" ≠ "/" := by
  intro hc
  apply h
  apply String.ext
  have hd := congrArg String.data hc
  rw [String.data_append] at hd
  have hlen := congrArg List.length hd
  simp at hlen
  exact List.length_eq_zero.mp hlen

theorem routeMatchForPathType_version_eq (path pt : String) :
    routeMatchForPathTypeV1beta1 path pt = routeMatchForPathTypeV1 path pt := rfl

theorem routeMatchForPathTypeV1_prefix_case (path : String) (h : path ≠ "/") :
    routeMatchForPathTypeV1 path "Prefix" =
      some { path := trimRightSlash path ++ prefixMatchPathElementsRegex,
             pathMatchType := .regexPath, methods := [WildcardHTTPMethod] } := by
  unfold routeMatchForPathTypeV1
  rw [if_neg (by decide), if_pos rfl, if_neg h]

theorem routeMatchForPathTypeV1_eq_none_iff (path t : String) :
    routeMatchForPathTypeV1 path t = none ↔
      t ≠ "Exact" ∧ t ≠ "Prefix" ∧ t ≠ "ImplementationSpecific" := by
  unfold routeMatchForPathTypeV1
  by_cases h1 : t = "Exact"
  · simp [h1]
  · by_cases h2 : t = "Prefix"
    · subst h2
      rw [if_neg h1, if_pos rfl]
      by_cases hr : path = "/" <;> simp [hr]
    · by_cases h3 : t = "ImplementationSpecific" <;> simp [h1, h2, h3]

/-! ### Claim theorems -/

/-- C1 counterexample: the trailing-slash idempotence fails for the non-root
path `p = ""`: translating `"" ++ "/"` with Prefix type hits the root branch
(pattern `/`, kind Prefix) while translating `""` yields the regex
`(/.*)?$`. -/
theorem c1_counterexample :
    routeMatchForPathV1 ("" ++ "/") (some "Prefix") ≠
      routeMatchForPathV1 "" (some "Prefix") := by
  decide

/-- C1 (amended): for Prefix path type, the root path `/` translates to
pattern `/` with kind Prefix; every other path — the empty path included —
translates to the path with all trailing `/` stripped followed by the suffix
`(/.*)?$` with kind Regex (identically in both schema versions); and for
every non-root path `p` that is additionally NON-EMPTY, translating
`p ++ "/"` gives the same result as translating `p`. -/
theorem c1_prefix_path_translation (p : String) (hroot : p ≠ "/") :
    routeMatchForPathV1 "/" (some "Prefix") =
      some { path := "/", pathMatchType := .prefixPath,
             methods := [WildcardHTTPMethod] } ∧
    routeMatchForPathV1 p (some "Prefix") =
      some { path := trimRightSlash p ++ prefixMatchPathElementsRegex,
             pathMatchType := .regexPath, methods := [WildcardHTTPMethod] } ∧
    routeMatchForPathV1beta1 p (some "Prefix") =
      routeMatchForPathV1 p (some "Prefix") ∧
    (p ≠ "" →
      routeMatchForPathV1 (p ++ "/") (some "Prefix") =
        routeMatchForPathV1 p (some "Prefix")) := by
  refine ⟨rfl, ?_, rfl, ?_⟩
  · exact routeMatchForPathTypeV1_prefix_case p hroot
  · intro hne
    show routeMatchForPathTypeV1 (p ++ "/") "Prefix" =
      routeMatchForPathTypeV1 p "Prefix"
    rw [routeMatchForPathTypeV1_prefix_case _ (append_slash_ne_root hne),
      routeMatchForPathTypeV1_prefix_case _ hroot, trimRightSlash_append_slash]

/-- C1 witness: the amended theorem evaluated at the concrete path `/foo`. -/
theorem c1_witness :
    routeMatchForPathV1 ("/foo" ++ "/") (some "Prefix") =
      routeMatchForPathV1 "/foo" (some "Prefix") :=
  (c1_prefix_path_translation "/foo" (by decide)).2.2.2 (by decide)

/-- C10: a nil path type is normalized to ImplementationSpecific before the
switch in both extractors, and the default (unsupported-path-type) branch —
the only branch whose log statement dereferences the path-type pointer — is
reached only when the path type is a non-nil unknown value; extraction never
dereferences a nil path type. -/
theorem c10_default_branch_safety :
    (∀ path, routeMatchForPathV1 path none =
        routeMatchForPathTypeV1 path "ImplementationSpecific") ∧
    (∀ path, routeMatchForPathV1beta1 path none =
        routeMatchForPathTypeV1beta1 path "ImplementationSpecific") ∧
    (∀ path pt, routeMatchForPathV1 path pt = none →
      ∃ t, pt = some t ∧
        t ≠ "Exact" ∧ t ≠ "Prefix" ∧ t ≠ "ImplementationSpecific") ∧
    (∀ path pt, routeMatchForPathV1beta1 path pt = none →
      ∃ t, pt = some t ∧
        t ≠ "Exact" ∧ t ≠ "Prefix" ∧ t ≠ "ImplementationSpecific") := by
  have key : ∀ path pt, routeMatchForPathTypeV1 path (effectivePathType pt) = none →
      ∃ t, pt = some t ∧
        t ≠ "Exact" ∧ t ≠ "Prefix" ∧ t ≠ "ImplementationSpecific" := by
    intro path pt h
    have h' := (routeMatchForPathTypeV1_eq_none_iff path (effectivePathType pt)).mp h
    cases pt with
    | none => exact absurd rfl h'.2.2
    | some t => exact ⟨t, rfl, h'⟩
  refine ⟨fun _ => rfl, fun _ => rfl, key, ?_⟩
  intro path pt h
  exact key path pt h

/-- C10 witness: the safety theorem applied to a concrete path whose nonsense
path type makes the translator reach the default branch. -/
theorem c10_witness :
    ∃ t, (some "Bogus" : Option String) = some t ∧
      t ≠ "Exact" ∧ t ≠ "Prefix" ∧ t ≠ "ImplementationSpecific" :=
  c10_default_branch_safety.2.2.1 "/a" (some "Bogus") (by decide)

theorem containsAnyChar_commonRegex_iff (p : String) :
    containsAnyChar p commonRegexChars = true ↔
      ∃ c ∈ p.data, c ∈ ['^', '$', '*', '+', '[', ']', '%', '|'] := by
  unfold containsAnyChar
  rw [List.any_eq_true]
  have hd : commonRegexChars.data = ['^', '$', '*', '+', '[', ']', '%', '|'] := rfl
  rw [hd]
  constructor
  · rintro ⟨c, hc, hmem⟩
    exact ⟨c, hc, by simpa [List.contains] using hmem⟩
  · rintro ⟨c, hc, hmem⟩
    exact ⟨c, hc, by simpa [List.contains] using hmem⟩

/-- C4: for an ImplementationSpecific path type — or an unset path type,
which behaves identically — both translators produce the path unmodified,
with kind Regex exactly when the path contains a character of the set
`^ $ * + [ ] % |`, and kind Prefix otherwise. -/
theorem c4_implementation_specific_translation (p : String) (pt : Option String)
    (h : pt = none ∨ pt = some "ImplementationSpecific") :
    routeMatchForPathV1beta1 p pt = routeMatchForPathV1 p pt ∧
    ∃ m, routeMatchForPathV1 p pt = some m ∧ m.path = p ∧
      m.methods = [WildcardHTTPMethod] ∧
      (m.pathMatchType = .regexPath ↔
        ∃ c ∈ p.data, c ∈ ['^', '$', '*', '+', '[', ']', '%', '|']) ∧
      (m.pathMatchType = .regexPath ∨ m.pathMatchType = .prefixPath) := by
  have hpt : effectivePathType pt = "ImplementationSpecific" := by
    rcases h with h | h <;> subst h <;> rfl
  refine ⟨rfl, ?_⟩
  show ∃ m, routeMatchForPathTypeV1 p (effectivePathType pt) = some m ∧ _
  rw [hpt]
  unfold routeMatchForPathTypeV1
  rw [if_neg (by decide), if_neg (by decide), if_pos rfl]
  by_cases hc : containsAnyChar p commonRegexChars = true
  · rw [if_pos hc]
    refine ⟨_, rfl, rfl, rfl, ?_, Or.inl rfl⟩
    exact ⟨fun _ => (containsAnyChar_commonRegex_iff p).mp hc, fun _ => rfl⟩
  · rw [if_neg hc]
    refine ⟨_, rfl, rfl, rfl, ?_, Or.inr rfl⟩
    constructor
    · intro hcontra
      simp at hcontra
    · intro hex
      exact absurd ((containsAnyChar_commonRegex_iff p).mpr hex) hc

/-- C4 witness: the theorem evaluated at the concrete path `/foo*` with an
unset path type. -/
theorem c4_witness :
    routeMatchForPathV1beta1 "/foo*" none = routeMatchForPathV1 "/foo*" none ∧
    ∃ m, routeMatchForPathV1 "/foo*" none = some m ∧ m.path = "/foo*" ∧
      m.methods = [WildcardHTTPMethod] ∧
      (m.pathMatchType = .regexPath ↔
        ∃ c ∈ "/foo*".data, c ∈ ['^', '$', '*', '+', '[', ']', '%', '|']) ∧
      (m.pathMatchType = .regexPath ∨ m.pathMatchType = .prefixPath) :=
  c4_implementation_specific_translation "/foo*" none (Or.inl rfl)

theorem append_lit_http (a : String) : a ++ "_" ++ "http" = a ++ "_http" := by
  rw [string_append_assoc, (by decide : ("_" : String) ++ "http" = "_http")]

theorem append_lit_https (a : String) : a ++ "_" ++ "https" = a ++ "_https" := by
  rw [string_append_assoc, (by decide : ("_" : String) ++ "https" = "_https")]

theorem append_lit_https_sni (a : String) :
    a ++ "_https" ++ "_with_sni" = a ++ "_https_with_sni" := by
  rw [string_append_assoc,
    (by decide : ("_https" : String) ++ "_with_sni" = "_https_with_sni")]

/-- C5: per port of the resolved port-to-protocol map — a non-HTTP port
yields no traffic match; an HTTP port with HTTPS ingress disabled yields
exactly one plain-HTTP match named `ingress_<svc>_<port>_http` with no server
names; an HTTP port with HTTPS ingress enabled yields exactly the two HTTPS
matches with client-certificate validation skipped, one without server names
and one (suffixed `_with_sni`) whose server names are the one-element list of
the service's server name. -/
theorem c5_traffic_match_per_port (svc : MeshService) (enableHTTPS : Bool)
    (port : Nat) (proto : String) :
    (proto ≠ ProtocolHTTP →
      trafficMatchesForPort svc enableHTTPS port proto = []) ∧
    (proto = ProtocolHTTP → enableHTTPS = false →
      trafficMatchesForPort svc enableHTTPS port proto =
        [{ name := "ingress_" ++ meshServiceString svc ++ "_" ++ toString port
              ++ "_http",
           port := port, protocol := ProtocolHTTP,
           skipClientCertValidation := false, serverNames := [] }]) ∧
    (proto = ProtocolHTTP → enableHTTPS = true →
      trafficMatchesForPort svc enableHTTPS port proto =
        [{ name := "ingress_" ++ meshServiceString svc ++ "_" ++ toString port
              ++ "_https",
           port := port, protocol := ProtocolHTTPS,
           skipClientCertValidation := true, serverNames := [] },
         { name := "ingress_" ++ meshServiceString svc ++ "_" ++ toString port
              ++ "_https_with_sni",
           port := port, protocol := ProtocolHTTPS,
           skipClientCertValidation := true,
           serverNames := [svc.serverName] }]) := by
  refine ⟨?_, ?_, ?_⟩
  · intro h
    unfold trafficMatchesForPort
    rw [if_pos h]
  · intro hp he
    subst hp
    subst he
    unfold trafficMatchesForPort ProtocolHTTP
    rw [if_neg (by simp), if_neg (by simp)]
    rw [append_lit_http]
  · intro hp he
    subst hp
    subst he
    unfold trafficMatchesForPort ProtocolHTTP ProtocolHTTPS
    rw [if_neg (by simp), if_pos rfl]
    rw [append_lit_https, append_lit_https_sni]

/-- C5 witness: the three cases evaluated at a concrete service and
port 80. -/
theorem c5_witness :
    trafficMatchesForPort svcEx true 80 "tcp" = [] ∧
    trafficMatchesForPort svcEx false 80 ProtocolHTTP =
      [{ name := "ingress_" ++ meshServiceString svcEx ++ "_" ++ toString 80
            ++ "_http",
         port := 80, protocol := ProtocolHTTP,
         skipClientCertValidation := false, serverNames := [] }] ∧
    trafficMatchesForPort svcEx true 80 ProtocolHTTP =
      [{ name := "ingress_" ++ meshServiceString svcEx ++ "_" ++ toString 80
            ++ "_https",
         port := 80, protocol := ProtocolHTTPS,
         skipClientCertValidation := true, serverNames := [] },
       { name := "ingress_" ++ meshServiceString svcEx ++ "_" ++ toString 80
            ++ "_https_with_sni",
         port := 80, protocol := ProtocolHTTPS,
         skipClientCertValidation := true,
         serverNames := [svcEx.serverName] }] :=
  ⟨(c5_traffic_match_per_port svcEx true 80 "tcp").1 (by decide),
   (c5_traffic_match_per_port svcEx false 80 ProtocolHTTP).2.1 rfl rfl,
   (c5_traffic_match_per_port svcEx true 80 ProtocolHTTP).2.2 rfl rfl⟩

/-- C3: the schema-version fan-out never returns an error — each version's
failed contribution is treated as empty, and even when both schema-version
fetches fail the fan-out returns a nil error with an empty list — while an
error from the port-to-protocol resolver aborts the whole
`getIngressTrafficPolicyFromK8s` call with that error. -/
theorem c3_version_fanout_error_handling (mc : MeshCatalog) (svc : MeshService) :
    (∃ l, getIngressPoliciesFromK8s mc svc = .ok l) ∧
    (∀ e1 e2, getIngressPoliciesNetworkingV1 mc svc = .error e1 →
      getIngressPoliciesNetworkingV1beta1 mc svc = .error e2 →
      getIngressPoliciesFromK8s mc svc = .ok []) ∧
    (∀ l e, getIngressPoliciesFromK8s mc svc = .ok l → l ≠ [] →
      mc.getTargetPortToProtocolMappingForService svc = .error e →
      getIngressTrafficPolicyFromK8s mc svc = .error e) := by
  refine ⟨⟨_, rfl⟩, ?_, ?_⟩
  · intro e1 e2 h1 h2
    unfold getIngressPoliciesFromK8s
    rw [h1, h2]
    rfl
  · intro l e hok hne hres
    unfold getIngressTrafficPolicyFromK8s
    rw [hok, except_bind_ok, if_neg hne, hres, except_bind_error]
    rfl

/-- C3 witness: a catalog with both fetches failing yields an empty ok
result; a catalog with a failing resolver (and a matching ingress) propagates
the resolver error. -/
theorem c3_witness :
    getIngressPoliciesFromK8s mcBothFailEx svcEx = .ok [] ∧
    getIngressTrafficPolicyFromK8s mcResolverFailEx svcEx =
      .error (.providerFetch "resolver down") := by
  constructor
  · exact (c3_version_fanout_error_handling mcBothFailEx svcEx).2.1 _ _ rfl rfl
  · exact (c3_version_fanout_error_handling mcResolverFailEx svcEx).2.2 _ _ rfl
      (by decide) rfl

/-- C6: when the merged route-policy list is empty, the assembler returns
`(nil, nil)` — no policy and no error — and does so for every possible
port-to-protocol resolver, i.e. without consulting it. -/
theorem c6_empty_route_policies (mc : MeshCatalog) (svc : MeshService)
    (h : getIngressPoliciesFromK8s mc svc = .ok []) :
    getIngressTrafficPolicyFromK8s mc svc = .ok none ∧
    ∀ resolver, getIngressTrafficPolicyFromK8s
        { mc with getTargetPortToProtocolMappingForService := resolver } svc =
      .ok none := by
  have key : ∀ (mc' : MeshCatalog), getIngressPoliciesFromK8s mc' svc = .ok [] →
      getIngressTrafficPolicyFromK8s mc' svc = .ok none := by
    intro mc' h'
    unfold getIngressTrafficPolicyFromK8s
    rw [h', except_bind_ok, if_pos rfl]
    rfl
  refine ⟨key mc h, fun resolver => key _ ?_⟩
  have hsame : getIngressPoliciesFromK8s
      { mc with getTargetPortToProtocolMappingForService := resolver } svc =
    getIngressPoliciesFromK8s mc svc := rfl
  rw [hsame, h]

/-- C6 witness: a catalog with no ingress resources yields no policy and no
error, also under a resolver that would fail if consulted. -/
theorem c6_witness :
    getIngressTrafficPolicyFromK8s mcNoIngressEx svcEx = .ok none ∧
    getIngressTrafficPolicyFromK8s
        { mcNoIngressEx with getTargetPortToProtocolMappingForService :=
            fun _ => Except.error (PolicyError.providerFetch "down") } svcEx =
      .ok none := by
  have h := c6_empty_route_policies mcNoIngressEx svcEx rfl
  exact ⟨h.1, h.2 _⟩

/-- C2 counterexample: the per-hostname candidate built during extraction
from the rule of `ingAEx` partially overlaps the accumulated policy
`polTwoHostsEx`; the spec's merge contract rejects exactly this input with
`AmbiguousHostnameOverlap`, yet the extraction step — whose merge call site
assigns a single return value — continues and silently appends the candidate
as a new policy, producing no error for any caller to receive. -/
theorem c2_counterexample :
    MergeInboundPolicies [polTwoHostsEx]
        (policyForRuleV1 svcEx "ing-a" "shop"
          { host := "a.com", paths := [pathFooEx] }) =
      .error .ambiguousHostnameOverlap ∧
    processIngressV1 svcEx [polTwoHostsEx] ingAEx =
      [polTwoHostsEx,
       policyForRuleV1 svcEx "ing-a" "shop"
         { host := "a.com", paths := [pathFooEx] }] := by
  exact ⟨rfl, rfl⟩

/-- C2 (amended): per the spec's merge contract, a candidate whose hostname
set partially overlaps (shares a hostname with, but is not identical to) an
existing policy's hostname set makes the merge fail with
`AmbiguousHostnameOverlap`; but the extractors' merge call sites assign the
merge's single return value and continue unconditionally — the call-site
merge agrees with the contract whenever the contract succeeds, and appends a
candidate matching no existing hostname set as a new policy — and either
schema version's extractor returns an error exactly for a provider fetch
failure, so no overlap error is propagated to the caller of the
extract/assemble operations. -/
theorem c2_overlap_error_not_propagated :
    (∀ a b, hostnamesPartialOverlap a b = true ↔
      ((∃ h, h ∈ a ∧ h ∈ b) ∧ a ≠ b)) ∧
    (∀ existing cand,
      (existing.any fun p =>
        hostnamesPartialOverlap p.hostnames cand.hostnames) = true →
      MergeInboundPolicies existing cand = .error .ambiguousHostnameOverlap) ∧
    (∀ existing cand l, MergeInboundPolicies existing cand = .ok l →
      mergeInboundPoliciesList existing cand = l) ∧
    (∀ mc svc e, getIngressPoliciesNetworkingV1 mc svc = .error e →
      mc.getIngressNetworkingV1 svc = .error e) ∧
    (∀ mc svc e, getIngressPoliciesNetworkingV1beta1 mc svc = .error e →
      mc.getIngressNetworkingV1beta1 svc = .error e) := by
  refine ⟨?_, ?_, ?_, ?_, ?_⟩
  · intro a b
    unfold hostnamesPartialOverlap hostnamesIntersect
    rw [Bool.and_eq_true, List.any_eq_true]
    constructor
    · rintro ⟨⟨h, hmem, hcont⟩, hne⟩
      refine ⟨⟨h, hmem, ?_⟩, ?_⟩
      · simpa [List.contains] using hcont
      · intro hcontra
        subst hcontra
        simp at hne
    · rintro ⟨⟨h, hmem, hmem'⟩, hne⟩
      refine ⟨⟨h, hmem, ?_⟩, ?_⟩
      · simpa [List.contains] using hmem'
      · simpa using hne
  · intro existing cand h
    unfold MergeInboundPolicies
    rw [if_pos h]
  · intro existing cand l h
    unfold MergeInboundPolicies at h
    unfold mergeInboundPoliciesList
    by_cases hp : (existing.any fun p =>
        hostnamesPartialOverlap p.hostnames cand.hostnames) = true
    · rw [if_pos hp] at h
      exact Except.noConfusion h
    · rw [if_neg hp] at h
      by_cases he : (existing.any fun p => p.hostnames == cand.hostnames) = true
      · rw [if_pos he] at h
        rw [if_pos he]
        exact Except.ok.inj h
      · rw [if_neg he] at h
        rw [if_neg he]
        exact Except.ok.inj h
  · intro mc svc e h
    unfold getIngressPoliciesNetworkingV1 at h
    cases hb : mc.getIngressNetworkingV1 svc with
    | error e2 =>
      rw [hb] at h
      simpa using h
    | ok ings =>
      rw [hb] at h
      simp at h
  · intro mc svc e h
    unfold getIngressPoliciesNetworkingV1beta1 at h
    cases hb : mc.getIngressNetworkingV1beta1 svc with
    | error e2 =>
      rw [hb] at h
      simpa using h
    | ok ings =>
      rw [hb] at h
      simp at h

/-- C2 witness: the merge contract rejects a concrete partially overlapping
candidate; the call-site merge agrees with the contract on a concrete
succeeding merge; and a concrete fetch failure is the error the extractor
returns. -/
theorem c2_witness :
    MergeInboundPolicies [polTwoHostsEx] polOverlapEx =
      .error .ambiguousHostnameOverlap ∧
    mergeInboundPoliciesList [] polTwoHostsEx = [polTwoHostsEx] ∧
    mcBothFailEx.getIngressNetworkingV1 svcEx =
      .error (.providerFetch "v1 down") := by
  refine ⟨?_, ?_, ?_⟩
  · exact c2_overlap_error_not_propagated.2.1 _ _ (by decide)
  · exact c2_overlap_error_not_propagated.2.2.1 [] polTwoHostsEx
      [polTwoHostsEx] rfl
  · exact c2_overlap_error_not_propagated.2.2.2.1 mcBothFailEx svcEx
      (PolicyError.providerFetch "v1 down") rfl

theorem foldl_middle_congr {α σ : Type} (f : σ → α → σ) (l₁ l₂ : List α)
    (a a' : α) (h : ∀ s, f s a = f s a') (acc : σ) :
    List.foldl f acc (l₁ ++ a :: l₂) = List.foldl f acc (l₁ ++ a' :: l₂) := by
  induction l₁ generalizing acc with
  | nil =>
    simp only [List.nil_append, List.foldl_cons, h]
  | cons x xs ih =>
    simp only [List.cons_append, List.foldl_cons]
    exact ih _

theorem routeMatchForPathTypeV1beta1_eq_none_iff (path t : String) :
    routeMatchForPathTypeV1beta1 path t = none ↔
      t ≠ "Exact" ∧ t ≠ "Prefix" ∧ t ≠ "ImplementationSpecific" := by
  rw [routeMatchForPathType_version_eq]
  exact routeMatchForPathTypeV1_eq_none_iff path t

/-- C7: in either schema version, a path whose path-type tag lies outside
the known set is skipped on its own — removing it from a rule's path list
leaves the rule's policy and the whole per-ingress processing unchanged —
and a rule's per-hostname policy is merged into the result exactly when it
accumulated at least one rule. -/
theorem c7_unknown_path_type_scoped :
    (∀ (svc : MeshService) ingName ingNs host paths₁ paths₂
        (bad : HTTPIngressPathV1) t,
      bad.pathType = some t → t ≠ "Exact" → t ≠ "Prefix" →
      t ≠ "ImplementationSpecific" →
      policyForRuleV1 svc ingName ingNs
          { host := host, paths := paths₁ ++ bad :: paths₂ } =
        policyForRuleV1 svc ingName ingNs
          { host := host, paths := paths₁ ++ paths₂ }) ∧
    (∀ (svc : MeshService) ingName ingNs host paths₁ paths₂
        (bad : HTTPIngressPathV1beta1) t,
      bad.pathType = some t → t ≠ "Exact" → t ≠ "Prefix" →
      t ≠ "ImplementationSpecific" →
      policyForRuleV1beta1 svc ingName ingNs
          { host := host, paths := paths₁ ++ bad :: paths₂ } =
        policyForRuleV1beta1 svc ingName ingNs
          { host := host, paths := paths₁ ++ paths₂ }) ∧
    (∀ (svc : MeshService) (acc : List InboundTrafficPolicy) ingName ingNs
        backend rules₁ rules₂ host paths₁ paths₂ (bad : HTTPIngressPathV1) t,
      bad.pathType = some t → t ≠ "Exact" → t ≠ "Prefix" →
      t ≠ "ImplementationSpecific" →
      processIngressV1 svc acc
          { name := ingName, nspace := ingNs, defaultBackend := backend,
            rules := rules₁ ++
              { host := host, paths := paths₁ ++ bad :: paths₂ } :: rules₂ } =
        processIngressV1 svc acc
          { name := ingName, nspace := ingNs, defaultBackend := backend,
            rules := rules₁ ++
              { host := host, paths := paths₁ ++ paths₂ } :: rules₂ }) ∧
    (∀ (svc : MeshService) (acc : List InboundTrafficPolicy) ingName ingNs
        backend rules₁ rules₂ host paths₁ paths₂
        (bad : HTTPIngressPathV1beta1) t,
      bad.pathType = some t → t ≠ "Exact" → t ≠ "Prefix" →
      t ≠ "ImplementationSpecific" →
      processIngressV1beta1 svc acc
          { name := ingName, nspace := ingNs, backend := backend,
            rules := rules₁ ++
              { host := host, paths := paths₁ ++ bad :: paths₂ } :: rules₂ } =
        processIngressV1beta1 svc acc
          { name := ingName, nspace := ingNs, backend := backend,
            rules := rules₁ ++
              { host := host, paths := paths₁ ++ paths₂ } :: rules₂ }) ∧
    (∀ (svc : MeshService) ingName ingNs (acc : List InboundTrafficPolicy)
        (rule : IngressRuleV1),
      ((policyForRuleV1 svc ingName ingNs rule).rules = [] →
        processRuleV1 svc ingName ingNs acc rule = acc) ∧
      ((policyForRuleV1 svc ingName ingNs rule).rules ≠ [] →
        processRuleV1 svc ingName ingNs acc rule =
          mergeInboundPoliciesList acc
            (policyForRuleV1 svc ingName ingNs rule))) ∧
    (∀ (svc : MeshService) ingName ingNs (acc : List InboundTrafficPolicy)
        (rule : IngressRuleV1beta1),
      ((policyForRuleV1beta1 svc ingName ingNs rule).rules = [] →
        processRuleV1beta1 svc ingName ingNs acc rule = acc) ∧
      ((policyForRuleV1beta1 svc ingName ingNs rule).rules ≠ [] →
        processRuleV1beta1 svc ingName ingNs acc rule =
          mergeInboundPoliciesList acc
            (policyForRuleV1beta1 svc ingName ingNs rule))) := by
  have hbadnone : ∀ (svc : MeshService) (bad : HTTPIngressPathV1) t,
      bad.pathType = some t → t ≠ "Exact" → t ≠ "Prefix" →
      t ≠ "ImplementationSpecific" → pathRuleV1 svc.name bad = none := by
    intro svc bad t hpt h1 h2 h3
    have hnone : routeMatchForPathV1 bad.path bad.pathType = none := by
      rw [hpt]
      exact (routeMatchForPathTypeV1_eq_none_iff bad.path t).mpr ⟨h1, h2, h3⟩
    unfold pathRuleV1
    rw [hnone]
    split <;> rfl
  have hbadnoneBeta : ∀ (svc : MeshService) (bad : HTTPIngressPathV1beta1) t,
      bad.pathType = some t → t ≠ "Exact" → t ≠ "Prefix" →
      t ≠ "ImplementationSpecific" → pathRuleV1beta1 svc.name bad = none := by
    intro svc bad t hpt h1 h2 h3
    have hnone : routeMatchForPathV1beta1 bad.path bad.pathType = none := by
      rw [hpt]
      exact (routeMatchForPathTypeV1beta1_eq_none_iff bad.path t).mpr ⟨h1, h2, h3⟩
    unfold pathRuleV1beta1
    rw [hnone]
    split <;> rfl
  have hpol : ∀ (svc : MeshService) ingName ingNs host paths₁ paths₂
      (bad : HTTPIngressPathV1) t,
      bad.pathType = some t → t ≠ "Exact" → t ≠ "Prefix" →
      t ≠ "ImplementationSpecific" →
      policyForRuleV1 svc ingName ingNs
          { host := host, paths := paths₁ ++ bad :: paths₂ } =
        policyForRuleV1 svc ingName ingNs
          { host := host, paths := paths₁ ++ paths₂ } := by
    intro svc ingName ingNs host paths₁ paths₂ bad t hpt h1 h2 h3
    unfold policyForRuleV1
    simp only [List.foldl_append, List.foldl_cons,
      hbadnone svc bad t hpt h1 h2 h3]
  have hpolBeta : ∀ (svc : MeshService) ingName ingNs host paths₁ paths₂
      (bad : HTTPIngressPathV1beta1) t,
      bad.pathType = some t → t ≠ "Exact" → t ≠ "Prefix" →
      t ≠ "ImplementationSpecific" →
      policyForRuleV1beta1 svc ingName ingNs
          { host := host, paths := paths₁ ++ bad :: paths₂ } =
        policyForRuleV1beta1 svc ingName ingNs
          { host := host, paths := paths₁ ++ paths₂ } := by
    intro svc ingName ingNs host paths₁ paths₂ bad t hpt h1 h2 h3
    unfold policyForRuleV1beta1
    simp only [List.foldl_append, List.foldl_cons,
      hbadnoneBeta svc bad t hpt h1 h2 h3]
  refine ⟨hpol, hpolBeta, ?_, ?_, ?_, ?_⟩
  · intro svc acc ingName ingNs backend rules₁ rules₂ host paths₁ paths₂ bad t
      hpt h1 h2 h3
    show List.foldl (processRuleV1 svc ingName ingNs)
        (match backend with
         | some b =>
           if b.service.name = svc.name then
             mergeInboundPoliciesList acc
               (wildcardIngressPolicy svc ingName ingNs)
           else acc
         | none => acc)
        (rules₁ ++ { host := host, paths := paths₁ ++ bad :: paths₂ } :: rules₂) =
      List.foldl (processRuleV1 svc ingName ingNs)
        (match backend with
         | some b =>
           if b.service.name = svc.name then
             mergeInboundPoliciesList acc
               (wildcardIngressPolicy svc ingName ingNs)
           else acc
         | none => acc)
        (rules₁ ++ { host := host, paths := paths₁ ++ paths₂ } :: rules₂)
    exact foldl_middle_congr _ rules₁ rules₂ _ _
      (fun s => by
        show (if (policyForRuleV1 svc ingName ingNs
              { host := host, paths := paths₁ ++ bad :: paths₂ }).rules.length
              > 0 then
            mergeInboundPoliciesList s (policyForRuleV1 svc ingName ingNs
              { host := host, paths := paths₁ ++ bad :: paths₂ })
          else s) =
          (if (policyForRuleV1 svc ingName ingNs
              { host := host, paths := paths₁ ++ paths₂ }).rules.length > 0 then
            mergeInboundPoliciesList s (policyForRuleV1 svc ingName ingNs
              { host := host, paths := paths₁ ++ paths₂ })
          else s)
        rw [hpol svc ingName ingNs host paths₁ paths₂ bad t hpt h1 h2 h3])
      _
  · intro svc acc ingName ingNs backend rules₁ rules₂ host paths₁ paths₂ bad t
      hpt h1 h2 h3
    show List.foldl (processRuleV1beta1 svc ingName ingNs)
        (match backend with
         | some b =>
           if b.serviceName = svc.name then
             mergeInboundPoliciesList acc
               (wildcardIngressPolicy svc ingName ingNs)
           else acc
         | none => acc)
        (rules₁ ++ { host := host, paths := paths₁ ++ bad :: paths₂ } :: rules₂) =
      List.foldl (processRuleV1beta1 svc ingName ingNs)
        (match backend with
         | some b =>
           if b.serviceName = svc.name then
             mergeInboundPoliciesList acc
               (wildcardIngressPolicy svc ingName ingNs)
           else acc
         | none => acc)
        (rules₁ ++ { host := host, paths := paths₁ ++ paths₂ } :: rules₂)
    exact foldl_middle_congr _ rules₁ rules₂ _ _
      (fun s => by
        show (if (policyForRuleV1beta1 svc ingName ingNs
              { host := host, paths := paths₁ ++ bad :: paths₂ }).rules.length
              > 0 then
            mergeInboundPoliciesList s (policyForRuleV1beta1 svc ingName ingNs
              { host := host, paths := paths₁ ++ bad :: paths₂ })
          else s) =
          (if (policyForRuleV1beta1 svc ingName ingNs
              { host := host, paths := paths₁ ++ paths₂ }).rules.length > 0 then
            mergeInboundPoliciesList s (policyForRuleV1beta1 svc ingName ingNs
              { host := host, paths := paths₁ ++ paths₂ })
          else s)
        rw [hpolBeta svc ingName ingNs host paths₁ paths₂ bad t hpt h1 h2 h3])
      _
  · intro svc ingName ingNs acc rule
    constructor
    · intro h
      show (if (policyForRuleV1 svc ingName ingNs rule).rules.length > 0 then
          mergeInboundPoliciesList acc (policyForRuleV1 svc ingName ingNs rule)
        else acc) = acc
      rw [h]
      rfl
    · intro h
      show (if (policyForRuleV1 svc ingName ingNs rule).rules.length > 0 then
          mergeInboundPoliciesList acc (policyForRuleV1 svc ingName ingNs rule)
        else acc) =
        mergeInboundPoliciesList acc (policyForRuleV1 svc ingName ingNs rule)
      rw [if_pos (by simpa [List.length_pos] using h)]
  · intro svc ingName ingNs acc rule
    constructor
    · intro h
      show (if (policyForRuleV1beta1 svc ingName ingNs rule).rules.length
          > 0 then
          mergeInboundPoliciesList acc
            (policyForRuleV1beta1 svc ingName ingNs rule)
        else acc) = acc
      rw [h]
      rfl
    · intro h
      show (if (policyForRuleV1beta1 svc ingName ingNs rule).rules.length
          > 0 then
          mergeInboundPoliciesList acc
            (policyForRuleV1beta1 svc ingName ingNs rule)
        else acc) =
        mergeInboundPoliciesList acc
          (policyForRuleV1beta1 svc ingName ingNs rule)
      rw [if_pos (by simpa [List.length_pos] using h)]

/-- C7 witness: in each schema version, inserting a bogus-typed path between
two valid paths leaves the rule's policy unchanged, and a rule with one
valid path is merged into the result. -/
theorem c7_witness :
    policyForRuleV1 svcEx "ing-a" "shop"
        { host := "a.com", paths := [pathFooEx] ++ pathBadEx :: [pathBarEx] } =
      policyForRuleV1 svcEx "ing-a" "shop"
        { host := "a.com", paths := [pathFooEx] ++ [pathBarEx] } ∧
    policyForRuleV1beta1 svcEx "ing-a" "shop"
        { host := "a.com",
          paths := [pathFooBetaEx] ++ pathBadBetaEx :: [pathBarBetaEx] } =
      policyForRuleV1beta1 svcEx "ing-a" "shop"
        { host := "a.com", paths := [pathFooBetaEx] ++ [pathBarBetaEx] } ∧
    processRuleV1 svcEx "ing-a" "shop" []
        { host := "a.com", paths := [pathFooEx] } =
      mergeInboundPoliciesList []
        (policyForRuleV1 svcEx "ing-a" "shop"
          { host := "a.com", paths := [pathFooEx] }) ∧
    processRuleV1beta1 svcEx "ing-a" "shop" []
        { host := "a.com", paths := [pathFooBetaEx] } =
      mergeInboundPoliciesList []
        (policyForRuleV1beta1 svcEx "ing-a" "shop"
          { host := "a.com", paths := [pathFooBetaEx] }) := by
  refine ⟨?_, ?_, ?_, ?_⟩
  · exact c7_unknown_path_type_scoped.1 svcEx "ing-a" "shop" "a.com"
      [pathFooEx] [pathBarEx] pathBadEx "Bogus" rfl
      (by decide) (by decide) (by decide)
  · exact c7_unknown_path_type_scoped.2.1 svcEx "ing-a" "shop" "a.com"
      [pathFooBetaEx] [pathBarBetaEx] pathBadBetaEx "Bogus" rfl
      (by decide) (by decide) (by decide)
  · exact (c7_unknown_path_type_scoped.2.2.2.2.1 svcEx "ing-a" "shop" [] _).2
      (by decide)
  · exact (c7_unknown_path_type_scoped.2.2.2.2.2 svcEx "ing-a" "shop" [] _).2
      (by decide)

/-- C8: the policy synthesized for an ingress default backend targeting the
service has the wildcard hostname and exactly one rule mapping the wildcard
route match to the single full-weight default weighted cluster with wildcard
caller identity; a default-backend-only ingress object yields exactly that
one policy, in either schema version. -/
theorem c8_default_backend_wildcard_policy :
    (∀ (svc : MeshService) ingName ingNs,
      wildcardIngressPolicy svc ingName ingNs =
        { name := getIngressTrafficPolicyName ingName ingNs WildcardHTTPMethod,
          hostnames := [WildcardHTTPMethod],
          rules := [{ route := { httpRouteMatch := WildCardRouteMatch,
                                 weightedClusters :=
                                   [getDefaultWeightedClusterForService svc] },
                      allowedServiceIdentities := [WildcardServiceIdentity] }] }) ∧
    (∀ (svc : MeshService) (ing : IngressV1) b, ing.rules = [] →
      ing.defaultBackend = some b → b.service.name = svc.name →
      extractV1 svc [ing] =
        [wildcardIngressPolicy svc ing.name ing.nspace]) ∧
    (∀ (svc : MeshService) (ing : IngressV1beta1) b, ing.rules = [] →
      ing.backend = some b → b.serviceName = svc.name →
      extractV1beta1 svc [ing] =
        [wildcardIngressPolicy svc ing.name ing.nspace]) := by
  refine ⟨fun _ _ _ => rfl, ?_, ?_⟩
  · intro svc ing b h1 h2 h3
    show processIngressV1 svc [] ing =
      [wildcardIngressPolicy svc ing.name ing.nspace]
    unfold processIngressV1
    simp only [h1, h2]
    rw [if_pos h3]
    rfl
  · intro svc ing b h1 h2 h3
    show processIngressV1beta1 svc [] ing =
      [wildcardIngressPolicy svc ing.name ing.nspace]
    unfold processIngressV1beta1
    simp only [h1, h2]
    rw [if_pos h3]
    rfl

/-- C8 witness: a concrete default-backend-only v1 ingress object yields
exactly the wildcard policy. -/
theorem c8_witness :
    extractV1 svcEx [ingDefaultEx] =
      [wildcardIngressPolicy svcEx ingDefaultEx.name ingDefaultEx.nspace] :=
  c8_default_backend_wildcard_policy.2.1 svcEx ingDefaultEx
    { service := { name := "bookstore" } } rfl rfl rfl

theorem foldl_congr_fun {α σ : Type} {f g : σ → α → σ}
    (h : ∀ s a, f s a = g s a) (l : List α) (init : σ) :
    List.foldl f init l = List.foldl g init l := by
  induction l generalizing init with
  | nil => rfl
  | cons a as ih =>
    simp only [List.foldl_cons, h]
    exact ih _

theorem pathRule_version_eq (svcName : String) (p : HTTPIngressPathV1beta1) :
    pathRuleV1beta1 svcName p = pathRuleV1 svcName (pathToV1 p) := rfl

theorem policyForRule_version_eq (svc : MeshService) (ingName ingNs : String)
    (r : IngressRuleV1beta1) :
    policyForRuleV1beta1 svc ingName ingNs r =
      policyForRuleV1 svc ingName ingNs (ruleToV1 r) := by
  unfold policyForRuleV1beta1 policyForRuleV1 ruleToV1
  rw [List.foldl_map]
  rfl

theorem processRule_version_eq (svc : MeshService) (ingName ingNs : String)
    (acc : List InboundTrafficPolicy) (r : IngressRuleV1beta1) :
    processRuleV1beta1 svc ingName ingNs acc r =
      processRuleV1 svc ingName ingNs acc (ruleToV1 r) := by
  unfold processRuleV1beta1 processRuleV1
  rw [policyForRule_version_eq]

theorem processIngress_version_eq (svc : MeshService)
    (acc : List InboundTrafficPolicy) (ing : IngressV1beta1) :
    processIngressV1beta1 svc acc ing =
      processIngressV1 svc acc (ingressToV1 ing) := by
  have hk : ∀ acc' : List InboundTrafficPolicy,
      List.foldl (processRuleV1beta1 svc ing.name ing.nspace) acc' ing.rules =
        List.foldl (processRuleV1 svc ing.name ing.nspace) acc'
          (ing.rules.map ruleToV1) := by
    intro acc'
    rw [List.foldl_map]
    exact foldl_congr_fun
      (fun s r => processRule_version_eq svc ing.name ing.nspace s r)
      ing.rules acc'
  show List.foldl (processRuleV1beta1 svc ing.name ing.nspace)
      (match ing.backend with
       | some b =>
         if b.serviceName = svc.name then
           mergeInboundPoliciesList acc
             (wildcardIngressPolicy svc ing.name ing.nspace)
         else acc
       | none => acc) ing.rules =
    List.foldl (processRuleV1 svc ing.name ing.nspace)
      (match ing.backend.map backendToV1 with
       | some b =>
         if b.service.name = svc.name then
           mergeInboundPoliciesList acc
             (wildcardIngressPolicy svc ing.name ing.nspace)
         else acc
       | none => acc) (ing.rules.map ruleToV1)
  cases ing.backend with
  | none => exact hk acc
  | some b =>
    show List.foldl (processRuleV1beta1 svc ing.name ing.nspace)
        (if b.serviceName = svc.name then
          mergeInboundPoliciesList acc
            (wildcardIngressPolicy svc ing.name ing.nspace)
        else acc) ing.rules =
      List.foldl (processRuleV1 svc ing.name ing.nspace)
        (if b.serviceName = svc.name then
          mergeInboundPoliciesList acc
            (wildcardIngressPolicy svc ing.name ing.nspace)
        else acc) (ing.rules.map ruleToV1)
    exact hk _

theorem extract_version_eq (svc : MeshService) (ings : List IngressV1beta1) :
    extractV1beta1 svc ings = extractV1 svc (ings.map ingressToV1) := by
  unfold extractV1beta1 extractV1
  rw [List.foldl_map]
  exact foldl_congr_fun
    (fun acc ing => processIngress_version_eq svc acc ing) ings []

/-- C9: the two schema-version extractors agree on semantically equivalent
inputs: on any fetched list, the v1beta1 extractor produces exactly what the
v1 extractor produces on the field-wise translated list, and two providers
whose fetch results are field-wise translations of one another make the two
extractor entry points return identical policy lists. -/
theorem c9_schema_version_equivalence :
    (∀ (svc : MeshService) (ings : List IngressV1beta1),
      extractV1beta1 svc ings = extractV1 svc (ings.map ingressToV1)) ∧
    (∀ (mc : MeshCatalog) (svc : MeshService),
      mc.getIngressNetworkingV1 svc =
        (mc.getIngressNetworkingV1beta1 svc).map (List.map ingressToV1) →
      getIngressPoliciesNetworkingV1 mc svc =
        getIngressPoliciesNetworkingV1beta1 mc svc) := by
  refine ⟨extract_version_eq, ?_⟩
  intro mc svc h
  unfold getIngressPoliciesNetworkingV1 getIngressPoliciesNetworkingV1beta1
  rw [h]
  cases hb : mc.getIngressNetworkingV1beta1 svc with
  | error e => rfl
  | ok ings => exact congrArg Except.ok (extract_version_eq svc ings).symm

/-- C9 witness: a catalog whose v1 fetch is the field-wise translation of its
v1beta1 fetch yields identical policy lists from both extractors. -/
theorem c9_witness :
    getIngressPoliciesNetworkingV1 mcPairedEx svcEx =
      getIngressPoliciesNetworkingV1beta1 mcPairedEx svcEx :=
  c9_schema_version_equivalence.2 mcPairedEx svcEx rfl

end OSM

